import Mathlib

/-!
Verification development for the DCF analysis suite.

The repository is a three-page financial-analysis application:
`pages/1_WACC_Calculator.py` (credit-spread lookup, market-model beta,
CAPM cost of equity, WACC with confidence band), `pages/2_Historical_Analysis.py`
(margins, growth, net working capital, reinvestment and NOPAT), and
`pages/3_DCF_Model.py` (revenue projection, discounting, terminal value,
equity bridge, sensitivity band).

All numeric quantities are embedded as rationals (`ℚ`).  Python / numpy
floating-point values that are non-finite (the result of dividing by zero,
which numpy turns into `inf` or `nan`) are represented by `Option.none`;
`pandas` `NaN` cells (for example the first entry of a `.diff()` or
`.pct_change()` column) are likewise represented by `Option.none`.
DataFrame columns are embedded as lists aligned by position, which models
the merge-by-identical-date-index performed by the scripts.
-/

namespace DCF

/-! ## Credit-spread table and lookup (`pages/1_WACC_Calculator.py`, lines 17-50) -/

/-- One row of the `credit_spreads` list of dictionaries: interest-coverage
bounds, a rating label and a spread quoted in percent. -/
structure SpreadEntry where
  greaterThan : ℚ
  lessThan : ℚ
  rating : String
  spread : ℚ
deriving DecidableEq

/-- The static `credit_spreads` table, verbatim from the source. -/
def credit_spreads : List SpreadEntry := [
  ⟨-100000, 0.199999, "D2/D", 19.00⟩,
  ⟨0.2, 0.649999, "C2/C", 15.50⟩,
  ⟨0.65, 0.799999, "Ca2/CC", 10.10⟩,
  ⟨0.8, 1.249999, "Caa/CCC", 7.28⟩,
  ⟨1.25, 1.499999, "B3/B-", 4.42⟩,
  ⟨1.5, 1.749999, "B2/B", 3.00⟩,
  ⟨1.75, 1.999999, "B1/B+", 2.61⟩,
  ⟨2.0, 2.2499999, "Ba2/BB", 1.83⟩,
  ⟨2.25, 2.49999, "Ba1/BB+", 1.55⟩,
  ⟨2.5, 2.999999, "Baa2/BBB", 1.20⟩,
  ⟨3.0, 4.249999, "A3/A-", 0.95⟩,
  ⟨4.25, 5.499999, "A2/A", 0.85⟩,
  ⟨5.5, 6.499999, "A1/A+", 0.77⟩,
  ⟨6.5, 8.499999, "Aa2/AA", 0.60⟩,
  ⟨8.5, 100000, "Aaa/AAA", 0.45⟩]

/-- Python `s.strip()`: drop whitespace from both ends, modelled directly on
the character list underlying the string. -/
def pyStrip (s : String) : String :=
  ⟨((s.data.dropWhile Char.isWhitespace).reverse.dropWhile Char.isWhitespace).reverse⟩

/-- Python `s.lower()`: lowercase every character. -/
def pyLower (s : String) : String := ⟨s.data.map Char.toLower⟩

/-- Python `s.strip().lower()` applied to a rating label. -/
def normalizeRating (s : String) : String := pyLower (pyStrip s)

/-- `get_credit_spread(rating, credit_spreads)`: scan the table in order and
return `Spread/100` for the first entry whose label matches after stripping
and lowercasing; `np.nan` (no match) is embedded as `none`. -/
def get_credit_spread (rating : String) : List SpreadEntry → Option ℚ
  | [] => none
  | e :: rest =>
      if normalizeRating e.rating = normalizeRating rating then some (e.spread / 100)
      else get_credit_spread rating rest

/-- `cost_of_debt = rf + credit_spread` (line 218).  Adding `nan` to a float
yields `nan`, so the `none` of a failed lookup propagates. -/
def cost_of_debt (rf : ℚ) (rating : String) : Option ℚ :=
  (get_credit_spread rating credit_spreads).map (fun s => rf + s)

/-! ## Market-model beta (`pages/1_WACC_Calculator.py`, lines 76-100) -/

/-- `Series.pct_change().dropna()`: period-over-period percentage change with
the leading `NaN` dropped. -/
def pctChange : List ℚ → List ℚ
  | p0 :: p1 :: rest => (p1 / p0 - 1) :: pctChange (p1 :: rest)
  | _ => []

/-- Excess returns: `data.pct_change().dropna() - rf`. -/
def excessReturns (prices : List ℚ) (rf : ℚ) : List ℚ :=
  (pctChange prices).map (fun r => r - rf)

/-- Arithmetic mean of a list (used by the OLS normal equations). -/
def listMean (xs : List ℚ) : ℚ := xs.sum / xs.length

/-- The slope of an ordinary least-squares fit of `y` on `x` with intercept,
which is what `sm.OLS(y, sm.add_constant(x)).fit().params[1]` computes:
`Σ(xᵢ-x̄)(yᵢ-ȳ) / Σ(xᵢ-x̄)²`.  `none` embeds the failure cases in which the
fit does not return a finite slope: mismatched series lengths (a shape
error inside the fit) or a degenerate design with zero regressor variance. -/
def olsSlope (y x : List ℚ) : Option ℚ :=
  if y.length = x.length then
    let xbar := listMean x
    let ybar := listMean y
    let sxx := (x.map (fun a => (a - xbar) ^ 2)).sum
    let sxy := ((x.zip y).map (fun p => (p.1 - xbar) * (p.2 - ybar))).sum
    if sxx = 0 then none else some (sxy / sxx)
  else none

/-- `calculate_beta(stock_data, index_data, rf)`: compute both excess-return
series and regress stock excess returns on index excess returns. -/
def calculate_beta (stock_data index_data : List ℚ) (rf : ℚ) : Option ℚ :=
  olsSlope (excessReturns stock_data rf) (excessReturns index_data rf)

/-! ## CAPM and WACC (`pages/1_WACC_Calculator.py`, lines 181, 218, 234-241) -/

/-- `cost_of_equity = rf + beta * emrp` (CAPM, line 181; also lines 237-238
where it is re-evaluated at the two beta confidence-interval endpoints). -/
def cost_of_equity (rf beta emrp : ℚ) : ℚ := rf + beta * emrp

/-- `wacc = w_E * cost_of_equity + w_D * cost_of_debt * (1 - marg_tax_rate)`
(lines 234, 240, 241). -/
def wacc_formula (wE kE wD kD t : ℚ) : ℚ := wE * kE + wD * kD * (1 - t)

/-- WACC as a function of beta: the composition actually used to obtain
`wacc_lower_ci`, `wacc` and `wacc_upper_ci`, holding the weights, the cost
of debt and the tax rate fixed. -/
def wacc_of_beta (wE wD kD t rf emrp beta : ℚ) : ℚ :=
  wacc_formula wE (cost_of_equity rf beta emrp) wD kD t

/-! ## Historical reinvestment metrics (`pages/2_Historical_Analysis.py`, lines 72-94) -/

/-- The two cash-flow-statement columns read by `calculate_reinvestment`,
aligned by period.  A value of this type stands for the mutable DataFrame
object held by the caller. -/
structure CashFlowStmt where
  capex : List ℚ
  da : List ℚ
deriving DecidableEq

/-- The columns of the balance-sheet DataFrame (after `calculate_nwc`) that
`calculate_reinvestment` reads.  The first `Change in NWC` entry is the
`NaN` produced by `.diff()`, hence `Option`. -/
structure NWCData where
  nwc : List ℚ
  nwc_change : List (Option ℚ)
deriving DecidableEq

/-- The income-statement columns read by `calculate_reinvestment`. -/
structure IncomeData where
  ebit : List ℚ
  tax_rate : List ℚ
deriving DecidableEq

/-- The merged frame returned by `calculate_reinvestment`.  `Option.none`
cells are the non-finite floats (`NaN`/`inf`) that pandas produces when an
operand is `NaN` or a divisor is zero. -/
structure ReinvestResult where
  capex : List ℚ
  da : List ℚ
  nwc_change : List (Option ℚ)
  reinvestment : List (Option ℚ)
  tax_rate : List ℚ
  nopat : List ℚ
  reinv_rate : List (Option ℚ)
deriving DecidableEq

/-- Three-column pointwise combination of aligned DataFrame columns. -/
def zipWith3 (f : α → β → γ → δ) : List α → List β → List γ → List δ
  | a :: as_, b :: bs, c :: cs => f a b c :: zipWith3 f as_ bs cs
  | _, _, _ => []

/-- `calculate_reinvestment(cash_flows_df, nwc_df, income_df, ...)`.

The first statement of the Python function is
`cash_flows_df['Capital Expenditure'] = -cash_flows_df['Capital Expenditure']`,
which writes through to the caller's DataFrame.  The embedding makes that
in-place mutation explicit state passing: the returned pair is
(the caller's cash-flow DataFrame after the call, the merged result frame).
Then, on the merged frame:
`Reinvestment = CapEx - D&A + Change in NWC`,
`NOPAT = EBIT * (1 - Tax Rate)`,
`Reinvestment Rate = Reinvestment / NOPAT`. -/
def calculate_reinvestment (cf : CashFlowStmt) (nwcd : NWCData) (inc : IncomeData) :
    CashFlowStmt × ReinvestResult :=
  let capexPos := cf.capex.map (fun c => -c)
  let cfAfter : CashFlowStmt := { cf with capex := capexPos }
  let reinvestment :=
    zipWith3 (fun c d (n : Option ℚ) => n.map (fun nv => c - d + nv))
      capexPos cf.da nwcd.nwc_change
  let nopat := inc.ebit.zipWith (fun e t => e * (1 - t)) inc.tax_rate
  let reinv_rate :=
    reinvestment.zipWith
      (fun (r : Option ℚ) n => if n = 0 then none else r.map (fun rv => rv / n)) nopat
  (cfAfter,
   { capex := capexPos, da := cf.da, nwc_change := nwcd.nwc_change,
     reinvestment := reinvestment, tax_rate := inc.tax_rate,
     nopat := nopat, reinv_rate := reinv_rate })

/-! ## LTM data (`pages/3_DCF_Model.py`, lines 14-46) -/

/-- One row of the transposed, date-sorted quarterly income statement.  The
date is abstracted to a sort key; a `NaN` in the `Total Revenue` column is
`none`. -/
structure Quarter where
  date : ℕ
  revenue : Option ℚ
deriving DecidableEq

/-- `get_ltm_data`, restricted to its computational core: keep the last four
quarters (`.iloc[-4:]`), sum the `Total Revenue` column (pandas `.sum()`
skips `NaN` entries and returns `0.0` on an empty frame) and read the most
recent date (`.index[-1]`).  On an empty frame `.index[-1]` raises, the
`except` branch runs, and the function returns `None` — embedded as `none`. -/
def get_ltm_data (rows : List Quarter) : Option (ℚ × ℕ) :=
  let ltm := rows.drop (rows.length - 4)
  match ltm.getLast? with
  | none => none
  | some lastRow => some (((ltm.map Quarter.revenue).filterMap id).sum, lastRow.date)

/-! ## Projection engine (`pages/3_DCF_Model.py`, lines 58-111) -/

/-- Running products, as `pandas.Series.cumprod` computes them. -/
def cumprodAux (acc : ℚ) : List ℚ → List ℚ
  | [] => []
  | x :: rest => (acc * x) :: cumprodAux (acc * x) rest

/-- `Series.cumprod()`. -/
def cumprod (xs : List ℚ) : List ℚ := cumprodAux 1 xs

/-- The `Revenue` column of `project_financials`:
`ltm_revenue * (1 + projection['Revenue Growth']).cumprod()` (line 81). -/
def project_revenues (ltm_revenue : ℚ) (growth_pattern : List ℚ) : List ℚ :=
  (cumprod (growth_pattern.map (fun g => 1 + g))).map (fun p => ltm_revenue * p)

/-- The discounted-FCF column written by `discount_cash_flows` and by each
sensitivity pass: `FCF_t / (1 + wacc) ** t` with `t` running from `k`. -/
def discountAux (w : ℚ) (k : ℕ) : List ℚ → List ℚ
  | [] => []
  | f :: rest => f / (1 + w) ^ k :: discountAux w (k + 1) rest

/-- `projection['Discounted FCF'].sum()` for a given FCF column:
`periods = np.arange(1, len+1)`, divide elementwise, sum. -/
def discounted_fcf_sum (fcf : List ℚ) (w : ℚ) : ℚ := (discountAux w 1 fcf).sum

/-- `calculate_terminal_value(final_fcf, wacc, terminal_growth, num_periods)`
(lines 100-104):
`TV = final_fcf * (1 + g) / (wacc - g)`, `PV = TV / (1 + wacc) ** N`.
There is no guard in the source; `none` marks exactly the inputs on which a
float division by zero occurs and the numpy result is non-finite. -/
def calculate_terminal_value (final_fcf wacc terminal_growth : ℚ) (num_periods : ℕ) :
    Option (ℚ × ℚ) :=
  if wacc - terminal_growth = 0 ∨ (1 + wacc) ^ num_periods = 0 then none
  else
    let terminal_value := final_fcf * (1 + terminal_growth) / (wacc - terminal_growth)
    some (terminal_value, terminal_value / (1 + wacc) ^ num_periods)

/-- `calculate_share_price` (lines 106-111): firm value, equity value and
per-share price.  `none` marks the division by zero shares. -/
def calculate_share_price (pv_fcf_sum pv_terminal total_debt total_cash
    shares_outstanding : ℚ) : Option (ℚ × ℚ × ℚ) :=
  if shares_outstanding = 0 then none
  else
    let firm_value := pv_fcf_sum + pv_terminal
    let equity_value := firm_value - total_debt + total_cash
    some (firm_value, equity_value, equity_value / shares_outstanding)

/-- One iteration of the sensitivity loop (lines 490-510) for a given WACC:
re-discount the *same* projected FCF column, recompute the present value of
the terminal value from the same `final_fcf = projection['FCF'].iloc[-1]`,
and rerun `calculate_share_price` with the same debt, cash and share count.
Only the discount rate varies between the three passes. -/
def sensitivity_share_price (fcf : List ℚ) (current_wacc terminal_growth
    total_debt total_cash shares_outstanding : ℚ) : Option ℚ :=
  match calculate_terminal_value (fcf.getLastD 0) current_wacc terminal_growth
      fcf.length with
  | none => none
  | some tv =>
      (calculate_share_price (discounted_fcf_sum fcf current_wacc) tv.2
        total_debt total_cash shares_outstanding).map (fun v => v.2.2)

/-! ## Advanced-mode assumption padding (`pages/3_DCF_Model.py`, lines 159-176) -/

/-- The `while len(pattern) < num_years: pattern.append(pattern[-1] if pattern
else default)` loops that follow the `[:num_years]` truncation of each parsed
assumption vector.  The observable output of the branch is the pattern list
alone; no flag distinguishing a padded vector from a fully supplied one is
produced. -/
def padPattern (xs : List ℚ) (default : ℚ) (n : ℕ) : List ℚ :=
  if _h : xs.length < n then padPattern (xs ++ [xs.getLastD default]) default n
  else xs
termination_by n - xs.length
decreasing_by
  simp only [List.length_append, List.length_cons, List.length_nil]
  omega

/-- The full advanced-mode treatment of one parsed assumption vector:
truncate to `num_years`, then pad with the last value. -/
def processPattern (parsed : List ℚ) (default : ℚ) (num_years : ℕ) : List ℚ :=
  padPattern (parsed.take num_years) default num_years

/-! ## Helper lemmas -/

/-- A scan of the spread table finds nothing when no label matches. -/
theorem get_credit_spread_eq_none (rating : String) (l : List SpreadEntry)
    (h : ∀ e ∈ l, normalizeRating e.rating ≠ normalizeRating rating) :
    get_credit_spread rating l = none := by
  induction l with
  | nil => rfl
  | cons e rest ih =>
      rw [get_credit_spread, if_neg (h e (List.mem_cons_self e rest))]
      exact ih fun x hx => h x (List.mem_cons_of_mem e hx)

/-- Summing the present values after skipping `NaN` cells is summing with the
`NaN` cells read as zero. -/
theorem filterMap_id_sum (l : List (Option ℚ)) :
    (l.filterMap id).sum = (l.map (fun o => o.getD 0)).sum := by
  induction l with
  | nil => rfl
  | cons o rest ih => cases o <;> simp [List.filterMap_cons, ih]

/-- Entry `t` of a running product is the seed times the product of the first
`t + 1` factors. -/
theorem cumprodAux_getElem? (xs : List ℚ) :
    ∀ (acc : ℚ) (t : ℕ), t < xs.length →
      (cumprodAux acc xs)[t]? = some (acc * (xs.take (t + 1)).prod) := by
  induction xs with
  | nil => intro acc t ht; simp at ht
  | cons x rest ih =>
      intro acc t ht
      cases t with
      | zero => simp [cumprodAux, mul_comm]
      | succ t =>
          have ht2 : t < rest.length := by simpa using ht
          simp only [cumprodAux, List.getElem?_cons_succ, ih (acc * x) t ht2,
            List.take_succ_cons, List.prod_cons, Option.some.injEq]
          ring

/-- The `while` padding loop appends copies of the last supplied value until
the vector has length `n`. -/
theorem padPattern_eq_append :
    ∀ (k : ℕ) (xs : List ℚ) (d : ℚ) (n : ℕ), n - xs.length = k → xs ≠ [] →
      xs.length ≤ n →
      padPattern xs d n = xs ++ List.replicate (n - xs.length) (xs.getLastD d) := by
  intro k
  induction k with
  | zero =>
      intro xs d n hk _hne hlen
      have hn : n = xs.length := by omega
      rw [padPattern, dif_neg (by omega)]
      simp [hn]
  | succ k ih =>
      intro xs d n hk hne hlen
      have hlt : xs.length < n := by omega
      rw [padPattern, dif_pos hlt]
      have hne2 : xs ++ [xs.getLastD d] ≠ [] := by simp
      have hk2 : n - (xs ++ [xs.getLastD d]).length = k := by simp; omega
      have hlen2 : (xs ++ [xs.getLastD d]).length ≤ n := by simp; omega
      rw [ih (xs ++ [xs.getLastD d]) d n hk2 hne2 hlen2]
      have hlast : (xs ++ [xs.getLastD d]).getLastD d = xs.getLastD d := by
        simp [List.getLastD_concat]
      rw [hlast, List.append_assoc]
      congr 1
      have hrep : n - xs.length = (n - (xs ++ [xs.getLastD d]).length) + 1 := by
        simp; omega
      rw [hrep, List.replicate_succ]
      simp

/-- Two-point ordinary least squares: with exactly two observations whose
regressor values differ, the fitted slope is the line through the two
points, `(y2 - y1) / (x2 - x1)`. -/
theorem olsSlope_pair (x1 x2 y1 y2 : ℚ) (hx : x1 ≠ x2) :
    olsSlope [y1, y2] [x1, x2] = some ((y2 - y1) / (x2 - x1)) := by
  have hsub : x1 - x2 ≠ 0 := sub_ne_zero.mpr hx
  have hsub2 : x2 - x1 ≠ 0 := sub_ne_zero.mpr (Ne.symm hx)
  have hhalf : (x1 - x2) ^ 2 / 2 ≠ 0 := div_ne_zero (pow_ne_zero 2 hsub) two_ne_zero
  unfold olsSlope listMean
  simp only [List.length_cons, List.length_nil, List.sum_cons, List.sum_nil,
    List.map_cons, List.map_nil, List.zip_cons_cons, List.zip_nil_right, if_true]
  split
  · next h =>
      exfalso
      push_cast at h
      exact hhalf (by linear_combination h)
  · next h =>
      congr 1
      push_cast at h ⊢
      rw [div_eq_div_iff h hsub2]
      ring

/-- Discounted sums are weakly antitone in the discount rate when every cash
flow is non-negative. -/
theorem discountAux_sum_le (w1 w2 : ℚ) (hw1 : 0 ≤ w1) (hlt : w1 < w2) :
    ∀ (fcf : List ℚ) (k : ℕ), (∀ f ∈ fcf, 0 ≤ f) →
      (discountAux w2 k fcf).sum ≤ (discountAux w1 k fcf).sum := by
  have h1p : (0:ℚ) < 1 + w1 := by linarith
  intro fcf
  induction fcf with
  | nil => intro k _; simp [discountAux]
  | cons f rest ih =>
      intro k hpos
      simp only [discountAux, List.sum_cons]
      have hf : 0 ≤ f := hpos f (List.mem_cons_self f rest)
      have hrest : ∀ x ∈ rest, 0 ≤ x := fun x hx => hpos x (List.mem_cons_of_mem f hx)
      have hpow : (1 + w1) ^ k ≤ (1 + w2) ^ k :=
        pow_le_pow_left₀ (le_of_lt h1p) (by linarith) k
      have hterm : f / (1 + w2) ^ k ≤ f / (1 + w1) ^ k :=
        div_le_div_of_nonneg_left hf (pow_pos h1p k) hpow
      exact add_le_add hterm (ih (k + 1) hrest)

/-- Discounted sums are strictly antitone in the discount rate when the cash
flows are non-empty and positive and discounting starts at period `k ≥ 1`. -/
theorem discountAux_sum_lt (w1 w2 : ℚ) (hw1 : 0 ≤ w1) (hlt : w1 < w2) (f : ℚ)
    (rest : List ℚ) (k : ℕ) (hk : k ≠ 0) (hpos : ∀ x ∈ f :: rest, 0 < x) :
    (discountAux w2 k (f :: rest)).sum < (discountAux w1 k (f :: rest)).sum := by
  have h1p : (0:ℚ) < 1 + w1 := by linarith
  simp only [discountAux, List.sum_cons]
  have hf : 0 < f := hpos f (List.mem_cons_self f rest)
  have hrest : ∀ x ∈ rest, 0 ≤ x := fun x hx =>
    le_of_lt (hpos x (List.mem_cons_of_mem f hx))
  have hpow : (1 + w1) ^ k < (1 + w2) ^ k :=
    pow_lt_pow_left₀ (by linarith) (le_of_lt h1p) hk
  have hterm : f / (1 + w2) ^ k < f / (1 + w1) ^ k :=
    div_lt_div_of_pos_left hf (pow_pos h1p k) hpow
  have htail := discountAux_sum_le w1 w2 hw1 hlt rest (k + 1) hrest
  linarith

/-- The present value of the Gordon-growth terminal value is strictly
antitone in the discount rate on `g < w`. -/
theorem pv_terminal_strict_anti (F g w1 w2 : ℚ) (N : ℕ) (hF : 0 < F) (hg : 0 ≤ g)
    (h1 : g < w1) (h2 : w1 < w2) :
    F * (1 + g) / (w2 - g) / (1 + w2) ^ N < F * (1 + g) / (w1 - g) / (1 + w1) ^ N := by
  have hnum : 0 < F * (1 + g) := by nlinarith
  have h1p : (0:ℚ) < 1 + w1 := by linarith
  have hd1 : 0 < (w1 - g) * (1 + w1) ^ N := mul_pos (by linarith) (pow_pos h1p N)
  have hdlt : (w1 - g) * (1 + w1) ^ N < (w2 - g) * (1 + w2) ^ N :=
    mul_lt_mul (by linarith) (pow_le_pow_left₀ (le_of_lt h1p) (by linarith) N)
      (pow_pos h1p N) (by linarith)
  rw [div_div, div_div]
  exact div_lt_div_of_pos_left hnum hd1 hdlt

/-- Closed form of one sensitivity pass when `g < w` (with `0 ≤ g`) and the
share count is non-zero: the guards do not fire and the pass reports
`(Σ FCF_t/(1+w)^t + PV(TV) - debt + cash) / shares`. -/
theorem sensitivity_share_price_closed_form (fcf : List ℚ) (w g debt cash shares : ℚ)
    (hg : 0 ≤ g) (hw : g < w) (hs : shares ≠ 0) :
    sensitivity_share_price fcf w g debt cash shares =
      some (((discountAux w 1 fcf).sum +
        fcf.getLastD 0 * (1 + g) / (w - g) / (1 + w) ^ fcf.length
          - debt + cash) / shares) := by
  have hcond : ¬(w - g = 0 ∨ (1 + w) ^ fcf.length = 0) := by
    push_neg
    exact ⟨by intro h; linarith [sub_eq_zero.mp h], pow_ne_zero _ (by linarith)⟩
  unfold sensitivity_share_price calculate_terminal_value
  rw [if_neg hcond]
  unfold calculate_share_price discounted_fcf_sum
  dsimp only
  rw [if_neg hs]
  rfl

/-! ## Claim theorems -/

/-- Claim C1.  The claim states that `calculate_terminal_value` fails with a
domain error whenever `wacc <= terminalGrowthRate`.  The source
(`pages/3_DCF_Model.py`, lines 100-104) has no such guard: at the failing
input `final_fcf = 100`, `wacc = 0.03`, `g = 0.05`, `N = 1` it silently
returns the non-economic negative terminal value `-5250` (present value
`-525000/103`) instead of failing.  The second conjunct confirms the
claim's worked example on the `wacc > g` side:
`TV = 100 * 1.03 / 0.06 = 5150/3 = 1716.666...`. -/
theorem C1_no_domain_guard_negative_tv :
    calculate_terminal_value 100 (3/100) (5/100) 1 = some (-5250, -525000/103) ∧
    calculate_terminal_value 100 (9/100) (3/100) 1 = some (5150/3, 515000/327) := by
  constructor <;> norm_num [calculate_terminal_value]

/-- Claim C2.  If no entry of the credit-spread table matches the rating
after stripping and lowercasing, `get_credit_spread` returns the
not-found signal (`np.nan`, embedded as `none`) and never a placeholder
spread, and `cost_of_debt = rf + spread` propagates the failure instead of
producing a numeric result. -/
theorem C2_unmatched_rating_fails (rf : ℚ) (rating : String)
    (h : ∀ e ∈ credit_spreads, normalizeRating e.rating ≠ normalizeRating rating) :
    get_credit_spread rating credit_spreads = none ∧ cost_of_debt rf rating = none := by
  have hnone := get_credit_spread_eq_none rating credit_spreads h
  exact ⟨hnone, by rw [cost_of_debt, hnone]; rfl⟩

/-- Witness for C2 at the concrete rating `"XYZ"` and `rf = 4.5%`. -/
theorem C2_witness :
    get_credit_spread "XYZ" credit_spreads = none ∧ cost_of_debt (9/200) "XYZ" = none :=
  C2_unmatched_rating_fails (9/200) "XYZ" (by decide)

/-- Claim C3.  Projected revenue is the cumulative product from the LTM base:
entry `t` (0-indexed) of the `Revenue` column equals
`LTMRevenue * Π_{i=1}^{t+1} (1 + g_i)`; in particular `LTMRevenue = 100` with
growth `[0.10, 0.10]` yields `[110, 121]`, not `120`. -/
theorem C3_revenue_cumulative_product :
    (∀ (ltm : ℚ) (growth : List ℚ) (t : ℕ), t < growth.length →
      (project_revenues ltm growth)[t]? =
        some (ltm * ((growth.take (t + 1)).map (fun g => 1 + g)).prod)) ∧
    project_revenues 100 [1/10, 1/10] = [110, 121] := by
  constructor
  · intro ltm growth t ht
    unfold project_revenues cumprod
    rw [List.getElem?_map,
      cumprodAux_getElem? (growth.map (fun g => 1 + g)) 1 t (by simpa using ht)]
    simp [List.map_take]
  · norm_num [project_revenues, cumprod, cumprodAux]

/-- Witness for C3: the general formula applied at `ltm = 100`,
`growth = [0.10, 0.10]`, `t = 1`. -/
theorem C3_witness :
    (project_revenues 100 [1/10, 1/10])[1]? =
      some (100 * ((([1/10, 1/10] : List ℚ).take 2).map (fun g => 1 + g)).prod) :=
  C3_revenue_cumulative_product.1 100 [1/10, 1/10] 1 (by norm_num)

/-- Claim C5.  The claim states that no operation mutates its inputs in
place, so that running an operation twice on the same data gives the same
result and leaves the input unchanged.  `calculate_reinvestment`
(`pages/2_Historical_Analysis.py`, line 75) violates this: its first
statement negates the `Capital Expenditure` column of the caller's
cash-flow DataFrame.  At the failing input below the caller's frame holds
`[40, 50]` (not the original `[-40, -50]`) after the first call, and a
second call on the same frame flips the sign back, reporting reinvestment
`-55` where the first call reported `45`. -/
theorem C5_reinvestment_mutates_input :
    (calculate_reinvestment ⟨[-40, -50], [8, 10]⟩ ⟨[3, 8], [none, some 5]⟩
        ⟨[90, 100], [1/5, 1/5]⟩).1 ≠ (⟨[-40, -50], [8, 10]⟩ : CashFlowStmt) ∧
    (calculate_reinvestment ⟨[-40, -50], [8, 10]⟩ ⟨[3, 8], [none, some 5]⟩
        ⟨[90, 100], [1/5, 1/5]⟩).1 = (⟨[40, 50], [8, 10]⟩ : CashFlowStmt) ∧
    (calculate_reinvestment ⟨[-40, -50], [8, 10]⟩ ⟨[3, 8], [none, some 5]⟩
        ⟨[90, 100], [1/5, 1/5]⟩).2.reinvestment = [none, some 45] ∧
    (calculate_reinvestment ⟨[40, 50], [8, 10]⟩ ⟨[3, 8], [none, some 5]⟩
        ⟨[90, 100], [1/5, 1/5]⟩).2.reinvestment = [none, some (-55)] := by
  refine ⟨?_, ?_, ?_, ?_⟩ <;> norm_num [calculate_reinvestment, zipWith3]

/-- Claim C6.  WACC is monotone in beta: substituting the endpoints of a beta
confidence interval into CAPM and then into the WACC formula, holding the
cost of debt fixed, preserves the ordering whenever the equity weight and
the equity risk premium are non-negative. -/
theorem C6_wacc_monotone_in_beta (wE wD kD t rf emrp bl b bu : ℚ)
    (h1 : bl ≤ b) (h2 : b ≤ bu) (hwE : 0 ≤ wE) (he : 0 ≤ emrp) :
    wacc_of_beta wE wD kD t rf emrp bl ≤ wacc_of_beta wE wD kD t rf emrp b ∧
    wacc_of_beta wE wD kD t rf emrp b ≤ wacc_of_beta wE wD kD t rf emrp bu := by
  unfold wacc_of_beta wacc_formula cost_of_equity
  have hq := mul_nonneg hwE he
  constructor
  · nlinarith [mul_nonneg hq (sub_nonneg.mpr h1)]
  · nlinarith [mul_nonneg hq (sub_nonneg.mpr h2)]

/-- Witness for C6 at `wE = 0.6`, `wD = 0.4`, `kD = 0.05`, `t = 0.25`,
`rf = 0.045`, `emrp = 0.05`, and the beta interval `0.9 ≤ 1 ≤ 1.1`. -/
theorem C6_witness :
    wacc_of_beta (3/5) (2/5) (1/20) (1/4) (9/200) (1/20) (9/10) ≤
      wacc_of_beta (3/5) (2/5) (1/20) (1/4) (9/200) (1/20) 1 ∧
    wacc_of_beta (3/5) (2/5) (1/20) (1/4) (9/200) (1/20) 1 ≤
      wacc_of_beta (3/5) (2/5) (1/20) (1/4) (9/200) (1/20) (11/10) :=
  C6_wacc_monotone_in_beta (3/5) (2/5) (1/20) (1/4) (9/200) (1/20) (9/10) 1 (11/10)
    (by norm_num) (by norm_num) (by norm_num) (by norm_num)

/-- Claim C7.  The claim states that for a period with `NOPAT ≤ 0` the
reinvestment rate is an explicit undefined marker — not a silently computed
finite number.  The source (`pages/2_Historical_Analysis.py`, line 92)
computes `Reinvestment / NOPAT` unconditionally: at the failing input below
the second period has `NOPAT = -80 < 0` and a well-defined reinvestment of
`45`, and the code silently reports the finite rate `45 / (-80) = -9/16`
with no flag. -/
theorem C7_negative_nopat_rate_silently_finite :
    (calculate_reinvestment ⟨[-40, -50], [8, 10]⟩ ⟨[3, 8], [none, some 5]⟩
        ⟨[90, -100], [1/5, 1/5]⟩).2.nopat = [72, -80] ∧
    (calculate_reinvestment ⟨[-40, -50], [8, 10]⟩ ⟨[3, 8], [none, some 5]⟩
        ⟨[90, -100], [1/5, 1/5]⟩).2.reinvestment = [none, some 45] ∧
    (calculate_reinvestment ⟨[-40, -50], [8, 10]⟩ ⟨[3, 8], [none, some 5]⟩
        ⟨[90, -100], [1/5, 1/5]⟩).2.reinv_rate = [none, some (-9/16)] := by
  refine ⟨?_, ?_, ?_⟩ <;> norm_num [calculate_reinvestment, zipWith3]

/-- Counterexample to claim C9.  The claim states that padding a short
assumption vector is surfaced to the caller as a condition distinct from a
fully specified vector.  The advanced-mode branch
(`pages/3_DCF_Model.py`, lines 159-176) produces only the pattern list
itself: padding `[0.20]` to three years yields output identical to the
output for the fully supplied `[0.20, 0.20, 0.20]`, so the caller cannot
distinguish the two. -/
theorem C9_counterexample_padding_not_surfaced :
    processPattern [1/5] (6/100) 3 = [1/5, 1/5, 1/5] ∧
    processPattern [1/5, 1/5, 1/5] (6/100) 3 = [1/5, 1/5, 1/5] ∧
    processPattern [1/5] (6/100) 3 = processPattern [1/5, 1/5, 1/5] (6/100) 3 := by
  have h1 : processPattern [1/5] (6/100) 3 = [1/5, 1/5, 1/5] := by
    unfold processPattern
    rw [List.take_of_length_le (by norm_num),
      padPattern_eq_append 2 [1/5] (6/100) 3 (by norm_num) (by simp) (by norm_num)]
    norm_num [List.replicate]
  have h2 : processPattern [1/5, 1/5, 1/5] (6/100) 3 = [1/5, 1/5, 1/5] := by
    unfold processPattern
    rw [List.take_of_length_le (by norm_num),
      padPattern_eq_append 0 [1/5, 1/5, 1/5] (6/100) 3 (by norm_num) (by simp)
        (by norm_num)]
    norm_num
  exact ⟨h1, h2, h1.trans h2.symm⟩

/-- Claim C9 as amended: a vector supplied with fewer entries than the `N`
projected years is extended by repeating the last supplied value until it
has exactly one value per year, but silently — the output is the padded
list alone, indistinguishable from a fully specified vector; no distinct
condition is surfaced. -/
theorem C9_amended_padding_repeats_last (xs : List ℚ) (d : ℚ) (n : ℕ)
    (hne : xs ≠ []) (hlen : xs.length ≤ n) :
    processPattern xs d n = xs ++ List.replicate (n - xs.length) (xs.getLastD d) := by
  unfold processPattern
  rw [List.take_of_length_le hlen]
  exact padPattern_eq_append (n - xs.length) xs d n rfl hne hlen

/-- Witness for the amended C9: `[0.10]` padded to three years. -/
theorem C9_amended_witness :
    processPattern [1/10] 0 3 =
      [1/10] ++ List.replicate (3 - ([1/10] : List ℚ).length) (([1/10] : List ℚ).getLastD 0) :=
  C9_amended_padding_repeats_last [1/10] 0 3 (by simp) (by norm_num)

/-- Counterexample to claim C10.  The claim states that with fewer than four
quarterly periods `get_ltm_data` still returns the sum of the quarters that
exist rather than failing.  With zero quarters `ltm_data.index[-1]` raises,
the `except` branch runs, and the function returns `None`: it fails. -/
theorem C10_counterexample_empty_quarters : get_ltm_data [] = none := by
  norm_num [get_ltm_data]

/-- Claim C10 as amended: when at least one and fewer than four quarterly
periods are available, `get_ltm_data` returns the sum of the revenues of
the quarters that exist (`NaN` revenues are skipped by `.sum()`,
contributing zero) together with the most recent date, rather than failing
or signalling insufficient data. -/
theorem C10_amended_partial_quarters_summed (rows : List Quarter)
    (hne : rows ≠ []) (hlen : rows.length < 4) :
    ∃ lastRow, rows.getLast? = some lastRow ∧
      get_ltm_data rows =
        some ((rows.map (fun q => q.revenue.getD 0)).sum, lastRow.date) := by
  have hdrop : rows.length - 4 = 0 := by omega
  refine ⟨rows.getLast hne, List.getLast?_eq_getLast rows hne, ?_⟩
  simp only [get_ltm_data, hdrop, List.drop_zero, List.getLast?_eq_getLast rows hne,
    filterMap_id_sum, List.map_map]
  rfl

/-- Witness for the amended C10: three quarters, the middle revenue `NaN`. -/
theorem C10_amended_witness :
    ∃ lastRow,
      ([⟨1, some 10⟩, ⟨2, none⟩, ⟨3, some 30⟩] : List Quarter).getLast? = some lastRow ∧
      get_ltm_data [⟨1, some 10⟩, ⟨2, none⟩, ⟨3, some 30⟩] =
        some ((([⟨1, some 10⟩, ⟨2, none⟩, ⟨3, some 30⟩] : List Quarter).map
          (fun q => q.revenue.getD 0)).sum, lastRow.date) :=
  C10_amended_partial_quarters_summed [⟨1, some 10⟩, ⟨2, none⟩, ⟨3, some 30⟩]
    (by simp) (by norm_num)

/-- Claim C4.  For three discount rates `g < wacc_lower < wacc_point <
wacc_upper` (with `0 ≤ g`, as enforced by the terminal-growth input
control), a strictly positive projected FCF stream, and a positive share
count, each sensitivity pass re-discounts the same FCF stream and the
implied share price is strictly decreasing as the WACC increases. -/
theorem C4_sensitivity_price_strictly_decreasing (fcf : List ℚ)
    (g wl wp wu debt cash shares : ℚ) (hne : fcf ≠ [])
    (hpos : ∀ f ∈ fcf, 0 < f) (hg : 0 ≤ g) (h1 : g < wl) (h2 : wl < wp)
    (h3 : wp < wu) (hs : 0 < shares) :
    ∃ pl pp pu : ℚ,
      sensitivity_share_price fcf wl g debt cash shares = some pl ∧
      sensitivity_share_price fcf wp g debt cash shares = some pp ∧
      sensitivity_share_price fcf wu g debt cash shares = some pu ∧
      pu < pp ∧ pp < pl := by
  have hsz : shares ≠ 0 := ne_of_gt hs
  have hF : 0 < fcf.getLastD 0 := by
    have hmem : fcf.getLast hne ∈ fcf := List.getLast_mem hne
    have hld : fcf.getLastD 0 = fcf.getLast hne := by
      rw [List.getLastD_eq_getLast?, List.getLast?_eq_getLast fcf hne]
      rfl
    rw [hld]
    exact hpos _ hmem
  have step : ∀ wa wb : ℚ, g < wa → wa < wb →
      ((discountAux wb 1 fcf).sum +
        fcf.getLastD 0 * (1 + g) / (wb - g) / (1 + wb) ^ fcf.length - debt + cash) / shares <
      ((discountAux wa 1 fcf).sum +
        fcf.getLastD 0 * (1 + g) / (wa - g) / (1 + wa) ^ fcf.length - debt + cash) / shares := by
    intro wa wb hga hab
    have hwa0 : 0 ≤ wa := le_trans hg (le_of_lt hga)
    have hS : (discountAux wb 1 fcf).sum < (discountAux wa 1 fcf).sum := by
      obtain ⟨f, rest, rfl⟩ := List.exists_cons_of_ne_nil hne
      exact discountAux_sum_lt wa wb hwa0 hab f rest 1 one_ne_zero hpos
    have hT := pv_terminal_strict_anti (fcf.getLastD 0) g wa wb fcf.length hF hg hga hab
    have hnum :
        (discountAux wb 1 fcf).sum +
          fcf.getLastD 0 * (1 + g) / (wb - g) / (1 + wb) ^ fcf.length - debt + cash <
        (discountAux wa 1 fcf).sum +
          fcf.getLastD 0 * (1 + g) / (wa - g) / (1 + wa) ^ fcf.length - debt + cash := by
      linarith
    exact div_lt_div_of_pos_right hnum hs
  exact ⟨_, _, _, sensitivity_share_price_closed_form fcf wl g debt cash shares hg h1 hsz,
    sensitivity_share_price_closed_form fcf wp g debt cash shares hg (lt_trans h1 h2) hsz,
    sensitivity_share_price_closed_form fcf wu g debt cash shares hg
      (lt_trans (lt_trans h1 h2) h3) hsz,
    step wp wu (lt_trans h1 h2) h3, step wl wp h1 h2⟩

/-- Witness for C4: one year of FCF `100`, `g = 0`, WACC values
`0.10 < 0.20 < 0.30`, no debt or cash, one share outstanding. -/
theorem C4_witness :
    ∃ pl pp pu : ℚ,
      sensitivity_share_price [100] (1/10) 0 0 0 1 = some pl ∧
      sensitivity_share_price [100] (1/5) 0 0 0 1 = some pp ∧
      sensitivity_share_price [100] (3/10) 0 0 0 1 = some pu ∧
      pu < pp ∧ pp < pl :=
  C4_sensitivity_price_strictly_decreasing [100] 0 (1/10) (1/5) (3/10) 0 0 1
    (by simp) (by norm_num) (by norm_num) (by norm_num) (by norm_num) (by norm_num)
    (by norm_num)

/-- Counterexample to claim C8.  The claim states that `calculate_beta`
fails with an `InsufficientData` error whenever the aligned excess-return
series have fewer than 3 observations.  The source
(`pages/1_WACC_Calculator.py`, lines 76-100) has no such check: at the
concrete three-price input below there are exactly 2 aligned observations,
and the function fits the regression and reports a beta (`some 0`) instead
of failing. -/
theorem C8_counterexample_two_observations_fit :
    (excessReturns [100, 105, 231/2] (0:ℚ)).length = 2 ∧
    calculate_beta [100, 110, 121] [100, 105, 231/2] 0 = some 0 := by
  constructor
  · norm_num [excessReturns, pctChange]
  · norm_num [calculate_beta, excessReturns, pctChange, olsSlope, listMean]

/-- Claim C8 as amended: `calculate_beta` requires the two excess-return
series to be equal-length and aligned, but applies no minimum-sample
guard — for any three-price series (2 aligned observations, fewer than 3)
whose index returns differ it fits the OLS regression and reports the
two-point slope `Δy / Δx` rather than failing with `InsufficientData`. -/
theorem C8_amended_fits_with_two_observations (p0 p1 p2 q0 q1 q2 rf : ℚ)
    (hx : q1 / q0 ≠ q2 / q1) :
    (excessReturns [q0, q1, q2] rf).length = 2 ∧
    calculate_beta [p0, p1, p2] [q0, q1, q2] rf =
      some (((p2 / p1 - 1) - (p1 / p0 - 1)) / ((q2 / q1 - 1) - (q1 / q0 - 1))) := by
  constructor
  · simp [excessReturns, pctChange]
  · have hx2 : (q1 / q0 - 1 - rf) ≠ (q2 / q1 - 1 - rf) := fun h => hx (by linarith)
    simp only [calculate_beta, excessReturns, pctChange, List.map_cons, List.map_nil]
    rw [olsSlope_pair _ _ _ _ hx2]
    congr 1
    ring

/-- Witness for the amended C8: the stock series `[100, 110, 121]` against
the index series `[100, 105, 115.5]` with `rf = 1%`. -/
theorem C8_amended_witness :
    (excessReturns [100, 105, 231/2] (1/100 : ℚ)).length = 2 ∧
    calculate_beta [100, 110, 121] [100, 105, 231/2] (1/100) =
      some (((121/110 - 1) - (110/100 - 1)) / ((231/2/105 - 1) - (105/100 - 1))) :=
  C8_amended_fits_with_two_observations 100 110 121 100 105 (231/2) (1/100) (by norm_num)

end DCF
